import Mathlib

/-!
Shallow embedding of `src/createProxyCacheMiddleware.ts` from the
apollo-proxy-cache repository, together with the abstract cache-store
contract of `src/caches/types.ts`.  The three middleware stages
(`directiveMiddleware`, `hashMiddleware`, `onProxyRes`) are translated
into pure Lean functions over an explicit request/store state; external
collaborators (the GraphQL parser/printer, the `utils-browser-only`
helpers, the MD5 digest, JSON encoding) are modelled at their interface
boundary, as the specification prescribes.
-/

/-- A JavaScript value, enough of the dynamic value model for the
middleware: `vUndefined` is `undefined`, `vNull` is `null`; numbers are
modelled as integers (the protocol never does float arithmetic). -/
inductive JsVal where
  | vUndefined : JsVal
  | vNull : JsVal
  | vBool : Bool → JsVal
  | vNum : Int → JsVal
  | vStr : String → JsVal
  | vArr : List JsVal → JsVal
  | vObj : List (String × JsVal) → JsVal

/-- JavaScript truthiness of a value (`if (v)`): `undefined`, `null`,
`false`, `0` and `""` are falsy, every array and object is truthy. -/
def truthy : JsVal → Bool
  | .vUndefined => false
  | .vNull => false
  | .vBool b => b
  | .vNum n => n != 0
  | .vStr s => s != ""
  | .vArr _ => true
  | .vObj _ => true

/-- Property access `v.f` in JavaScript: throws a `TypeError` on
`undefined`/`null`, yields the field (or `undefined`) on an object, and
`undefined` on any other primitive. -/
def jsGetField : JsVal → String → Except String JsVal
  | .vUndefined, _ => .error "TypeError"
  | .vNull, _ => .error "TypeError"
  | .vObj fs, f =>
      match fs.lookup f with
      | some v => .ok v
      | none => .ok .vUndefined
  | _, _ => .ok .vUndefined

/-- Property access on a possibly-undefined binding (`req.body` is
`undefined` when no body parser ran): `none` plays `undefined`. -/
def jsGetFieldOpt : Option JsVal → String → Except String JsVal
  | none, _ => .error "TypeError"
  | some v, f => jsGetField v f

/-- Truthiness of `req.body` itself (`!req.body`): `undefined` is falsy. -/
def optTruthy : Option JsVal → Bool
  | none => false
  | some v => truthy v

/-- Replace the value of a field of an object-field list, keeping its
position, as the spread `{ ...req.body, query: q }` does when the field
already exists; append when absent. -/
def setField : List (String × JsVal) → String → JsVal → List (String × JsVal)
  | [], f, v => [(f, v)]
  | (k, w) :: rest, f, v =>
      if k = f then (k, v) :: rest else (k, w) :: setField rest f v

/-- Escape a character for a JSON string literal. -/
def jsonEscapeChar (c : Char) : List Char :=
  if c = '"' ∨ c = '\\' then ['\\', c] else [c]

/-- Escape a string for inclusion in a JSON string literal. -/
def jsonEscape (s : String) : String :=
  String.mk (s.data.flatMap jsonEscapeChar)

mutual
/-- `JSON.stringify` on the modelled values (canonical form: no
whitespace; `undefined` object fields are dropped, `undefined` array
elements become `null`, as in JavaScript). -/
def jsonStringify : JsVal → String
  | .vUndefined => "null"
  | .vNull => "null"
  | .vBool b => if b then "true" else "false"
  | .vNum n => toString n
  | .vStr s => "\"" ++ jsonEscape s ++ "\""
  | .vArr xs => "[" ++ String.intercalate "," (jsonItems xs) ++ "]"
  | .vObj fs => "\x7b" ++ String.intercalate "," (jsonEntries fs) ++ "\x7d"

/-- The serialized elements of a JSON array. -/
def jsonItems : List JsVal → List String
  | [] => []
  | x :: xs => jsonStringify x :: jsonItems xs

/-- The serialized entries of a JSON object; `undefined`-valued fields
are dropped as `JSON.stringify` drops them. -/
def jsonEntries : List (String × JsVal) → List String
  | [] => []
  | (_, .vUndefined) :: fs => jsonEntries fs
  | (k, v) :: fs =>
      ("\"" ++ jsonEscape k ++ "\":" ++ jsonStringify v) :: jsonEntries fs
end

example : jsonStringify (.vObj [("query", .vStr "query \x7b x \x7d"), ("variables", .vObj [])])
    = "\x7b\"query\":\"query \x7b x \x7d\",\"variables\":\x7b\x7d\x7d" := by rfl

example : truthy (.vObj []) = true := by rfl
example : truthy (.vStr "") = false := by rfl

/-- The opening-brace character, by code point. -/
def lbrace : Char := Char.ofNat 123

/-- The closing-brace character, by code point. -/
def rbrace : Char := Char.ofNat 125

/-- Skip JSON insignificant whitespace. -/
def skipWs : List Char → List Char
  | c :: cs => if c = ' ' ∨ c = '\n' ∨ c = '\t' ∨ c = '\r' then skipWs cs else c :: cs
  | [] => []

/-- Parse the remainder of a JSON string literal (after the opening
quote), un-escaping `\"` and `\\`. -/
def parseStrBody : List Char → Except String (String × List Char)
  | [] => .error "Unexpected end of JSON input"
  | '\\' :: c :: cs => do
      let (s, r) ← parseStrBody cs
      .ok (String.mk [c] ++ s, r)
  | c :: cs =>
      if c = '"' then .ok ("", cs)
      else do
        let (s, r) ← parseStrBody cs
        .ok (String.mk [c] ++ s, r)

/-- Split the leading decimal digits off a character list. -/
def takeDigits : List Char → List Char × List Char
  | c :: cs =>
      if c.isDigit then
        let (d, r) := takeDigits cs
        (c :: d, r)
      else ([], c :: cs)
  | [] => ([], [])

/-- Numeric value of a digit list. -/
def digitsToNat (ds : List Char) : Nat :=
  ds.foldl (fun acc c => acc * 10 + (c.toNat - 48)) 0

mutual
/-- Modelled from the spec: `JSON.parse`, the decoder applied to
upstream response bodies and to stored `response` fields (the runtime's
built-in, external to the repository).  Fuel-indexed recursive-descent
parser for the JSON fragment the protocol produces: null, booleans,
integers, strings with `\"`/`\\` escapes, arrays and objects. -/
def parseVal : Nat → List Char → Except String (JsVal × List Char)
  | 0, _ => .error "Unexpected end of JSON input"
  | fuel + 1, cs =>
      match skipWs cs with
      | 'n' :: 'u' :: 'l' :: 'l' :: r => .ok (.vNull, r)
      | 't' :: 'r' :: 'u' :: 'e' :: r => .ok (.vBool true, r)
      | 'f' :: 'a' :: 'l' :: 's' :: 'e' :: r => .ok (.vBool false, r)
      | '"' :: r => do
          let (s, r') ← parseStrBody r
          .ok (.vStr s, r')
      | '[' :: r =>
          (match skipWs r with
          | ']' :: r' => .ok (.vArr [], r')
          | r' => do
              let (xs, r'') ← parseArrTail fuel r'
              .ok (.vArr xs, r''))
      | c :: r =>
          if c = lbrace then
            match skipWs r with
            | d :: r' =>
                if d = rbrace then .ok (.vObj [], r')
                else do
                  let (fs, r'') ← parseObjTail fuel (d :: r')
                  .ok (.vObj fs, r'')
            | [] => .error "Unexpected end of JSON input"
          else if c = '-' then
            match takeDigits r with
            | ([], _) => .error "Unexpected token"
            | (ds, r') => .ok (.vNum (-(digitsToNat ds : Int)), r')
          else if c.isDigit then
            match takeDigits (c :: r) with
            | (ds, r') => .ok (.vNum (digitsToNat ds : Int), r')
          else .error "Unexpected token"
      | [] => .error "Unexpected end of JSON input"

/-- Elements of a JSON array after the opening bracket (at least one). -/
def parseArrTail : Nat → List Char → Except String (List JsVal × List Char)
  | 0, _ => .error "Unexpected end of JSON input"
  | fuel + 1, cs => do
      let (v, r) ← parseVal fuel cs
      match skipWs r with
      | ',' :: r' => do
          let (xs, r'') ← parseArrTail fuel r'
          .ok (v :: xs, r'')
      | ']' :: r' => .ok ([v], r')
      | _ => .error "Unexpected token"

/-- Entries of a JSON object after the opening brace (at least one). -/
def parseObjTail : Nat → List Char → Except String (List (String × JsVal) × List Char)
  | 0, _ => .error "Unexpected end of JSON input"
  | fuel + 1, cs =>
      match skipWs cs with
      | '"' :: r => do
          let (k, r') ← parseStrBody r
          match skipWs r' with
          | ':' :: r'' => do
              let (v, r3) ← parseVal fuel r''
              match skipWs r3 with
              | ',' :: r4 => do
                  let (fs, r5) ← parseObjTail fuel r4
                  .ok ((k, v) :: fs, r5)
              | d :: r4 =>
                  if d = rbrace then .ok ([(k, v)], r4)
                  else .error "Unexpected token"
              | [] => .error "Unexpected end of JSON input"
          | _ => .error "Unexpected token"
      | _ => .error "Unexpected token"
end

/-- `JSON.parse`: parse a whole string as one JSON value. -/
def jsonParse (s : String) : Except String JsVal :=
  match parseVal (2 * s.length + 2) s.data with
  | .error e => .error e
  | .ok (v, r) =>
      match skipWs r with
      | [] => .ok v
      | _ => .error "Unexpected token after JSON value"

example : jsonParse "\x7b\"a\":[1,-2,null],\"b\":\"x\"\x7d"
    = .ok (.vObj [("a", .vArr [.vNum 1, .vNum (-2), .vNull]), ("b", .vStr "x")]) := by rfl

example : jsonParse (jsonStringify (.vObj [("x", .vNum 1)])) = .ok (.vObj [("x", .vNum 1)]) := by
  rfl

/-- Modelled from the spec: the MD5 content digest supplied by the
external `crypto` module (`createHash('md5').update(s).digest('hex')`).
The spec requires only that it be a collision-resistant content
address of the serialized body, so it is represented as an injective
function of its input. -/
def md5hex (s : String) : String := "md5:" ++ s

/-- An operation issued against the cache store, recorded in order of
issue so that theorems can speak about which keys and fields a request's
lifecycle touched. -/
inductive StoreOp where
  | get : String → StoreOp
  | set : String → JsVal → Int → StoreOp
  | hget : String → StoreOp
  | hset : String → String → String → Int → StoreOp

/-- The `Cache` contract of `src/caches/types.ts`, at its interface
boundary: each operation may reject (the promise-rejection channel is
the `Except` error).  `get` yields the stored scalar (or `null` when
absent); `hget` yields the whole field map or `undefined`; `set`/`hset`
yield the updated store. -/
structure CacheIface (σ : Type) where
  get : σ → String → Except String JsVal
  set : σ → String → JsVal → Int → Except String σ
  hget : σ → String → Except String (Option (List (String × String)))
  hset : σ → String → String → String → Int → Except String σ

/-- Modelled from the spec (§4.1): a concrete in-memory backend
satisfying the CacheStore contract (the repository's cache backends are
not under `src/`): scalar entries and field maps in association lists;
expiry is not observed within a single interleaving. -/
structure ListStore where
  scalars : List (String × JsVal)
  hashes : List (String × List (String × String))

/-- Set or replace an association-list binding. -/
def setAssoc {α : Type} : List (String × α) → String → α → List (String × α)
  | [], k, v => [(k, v)]
  | (k', w) :: rest, k, v =>
      if k' = k then (k', v) :: rest else (k', w) :: setAssoc rest k v

/-- The `ListStore` implementation of the cache contract: operations
never reject; a missing scalar reads as `null` (the contract's
"absent, not an error"). -/
def listIface : CacheIface ListStore where
  get st k := .ok ((st.scalars.lookup k).getD .vNull)
  set st k v _ := .ok { st with scalars := setAssoc st.scalars k v }
  hget st k := .ok (st.hashes.lookup k)
  hset st k f v _ :=
    .ok { st with hashes := setAssoc st.hashes k (setAssoc ((st.hashes.lookup k).getD []) f v) }

/-- The empty store. -/
def emptyStore : ListStore := ⟨[], []⟩

/-- The per-request state the middleware reads and mutates: the parsed
body (`none` when no body parser populated it, as `req.body` is then
`undefined`), the HTTP method, the header map, and the two transient
annotation fields `_hasCache` and `_bodyHash` attached by the phases. -/
structure Req where
  body : Option JsVal
  method : String
  headers : List (String × String)
  hasCache : Option (String × Int)
  bodyHash : Option String

/-- How a middleware stage ends: calling `next()`, answering with
`response.json(body)` after setting `headers`, or an uncaught
throw/promise rejection (no response, `next` never called). -/
inductive Outcome where
  | next : Outcome
  | respond : List (String × String) → JsVal → Outcome
  | thrown : String → Outcome

/-- An error handed to the Error Policy (`errorOnGet` / `errorOnSet`
of `utils-browser-only`). -/
inductive PhaseErr where
  | getPhase : String → PhaseErr
  | setPhase : String → PhaseErr
deriving DecidableEq

/-- Result of running one middleware stage: its outcome, the request
object after any mutations, the store, the store operations attempted,
and the errors reported to the Error Policy. -/
structure MwOut (σ : Type) where
  outcome : Outcome
  req : Req
  store : σ
  trace : List StoreOp
  reported : List PhaseErr

/-- The parsed GraphQL document.  The parser/printer and the
`utils-browser-only` helpers are external to `src/`, specified only at
their interface (§6); the printed form is all the middleware observes,
so a document is represented by data the interface functions interpret. -/
abbrev GqlDoc : Type := String

/-- Modelled from the spec (§6, external interfaces): the GraphQL
parser/printer and the `utils-browser-only` helpers
(`hasDirectives [DIRECTIVE]`, `removeCacheDirective`,
`calculateArguments` with the key-modifier folded in).  `parse` and the
two helpers may throw (`Except`); `print` is the total printer. -/
structure GqlEnv where
  parse : JsVal → Except String GqlDoc
  hasCacheDirective : GqlDoc → Bool
  removeCacheDirective : GqlDoc → Except String GqlDoc
  calcArgs : GqlDoc → JsVal → Req → Except String (String × Int)
  print : GqlDoc → String

/-- `X-Proxy-Cached`. -/
def CACHE_HEADER : String := "X-Proxy-Cached"

/-- `X-Proxy-Hash`. -/
def CACHE_HASH_HEADER : String := "X-Proxy-Hash"

/-- Truthiness of the `_hasCache` annotation (an object, truthy
whenever set). -/
def hasCacheTruthy : Option (String × Int) → Bool :=
  Option.isSome

/-- Truthiness of the `_bodyHash` annotation (a string: truthy when set
and non-empty). -/
def bodyHashTruthy : Option String → Bool
  | some s => s != ""
  | none => false

/-- `JSON.stringify(req.body)`; the `none` branch is unreachable in the
phases (they only serialize a populated body). -/
def stringifyBody : Option JsVal → String
  | some v => jsonStringify v
  | none => "undefined"

/-- The spread `{ ...req.body, query: printed }` used by the Directive
Phase to rewrite the outgoing query text: replaces the `query` field in
place (spread keeps field order), appends it when the body had none. -/
def spreadSetQuery : Option JsVal → String → JsVal
  | some (.vObj fs), s => .vObj (setField fs "query" (.vStr s))
  | _, s => .vObj [("query", .vStr s)]

/-- `req.header(name)` lookup. -/
def headerVal (req : Req) (name : String) : Option String :=
  req.headers.lookup name

/-- `cacheBypassHeader && req.header(cacheBypassHeader)`: the bypass
fires when a header name is configured (truthy string) and the request
carries it with a truthy value. -/
def bypassTriggered (cacheBypassHeader : Option String) (req : Req) : Bool :=
  match cacheBypassHeader with
  | none => false
  | some name =>
      (name != "") &&
        match headerVal req name with
        | some v => v != ""
        | none => false

/-- `directiveMiddleware` (lines 30–71 of
`createProxyCacheMiddleware.ts`): skip when a POST has no parsed body
or the body has no truthy `query`; parse the query and test for the
`@cache` directive; when present, inside the try: strip the directive,
compute `{id, timeout}`, look the id up in the scalar store — a truthy
hit answers `{data}` with the cache header, a miss attaches `_hasCache`
and rewrites `req.body.query` to the stripped text; any throw inside
the try is reported via `errorOnGet` and `next()` still runs.  The
`parse` call itself sits before the try, so its throw escapes. -/
def directiveMiddleware {σ : Type} (env : GqlEnv) (C : CacheIface σ)
    (st : σ) (req : Req) : MwOut σ :=
  if (!optTruthy req.body) && (req.method == "POST") then
    ⟨.next, req, st, [], []⟩
  else
    match jsGetFieldOpt req.body "query" with
    | .error e => ⟨.thrown e, req, st, [], []⟩
    | .ok q =>
      if !truthy q then ⟨.next, req, st, [], []⟩
      else
        match env.parse q with
        | .error e => ⟨.thrown e, req, st, [], []⟩
        | .ok doc =>
          if env.hasCacheDirective doc then
            match env.removeCacheDirective doc with
            | .error e => ⟨.next, req, st, [], [.getPhase e]⟩
            | .ok nextQuery =>
              match jsGetFieldOpt req.body "variables" with
              | .error e => ⟨.next, req, st, [], [.getPhase e]⟩
              | .ok vars =>
                match env.calcArgs doc vars req with
                | .error e => ⟨.next, req, st, [], [.getPhase e]⟩
                | .ok (id, timeout) =>
                  match C.get st id with
                  | .error e => ⟨.next, req, st, [.get id], [.getPhase e]⟩
                  | .ok possibleData =>
                    if truthy possibleData then
                      ⟨.respond [(CACHE_HEADER, "true")] (.vObj [("data", possibleData)]),
                        req, st, [.get id], []⟩
                    else
                      ⟨.next,
                        { req with
                          hasCache := some (id, timeout),
                          body := some (spreadSetQuery req.body (env.print nextQuery)) },
                        st, [.get id], []⟩
          else ⟨.next, req, st, [], []⟩

/-- `hashMiddleware` (lines 73–110): skip when a POST has no parsed
body, when the body has no truthy `query`, or when the bypass header
fires; otherwise hash the serialized body with MD5, attach `_bodyHash`,
unconditionally `hset` the `lastRequested` field, `hget` the record,
and on a truthy `response` field answer `{data: JSON.parse(response)}`
with the cache and hash headers; else `next()`.  No try/catch wraps the
store calls: a rejection escapes the middleware. -/
def hashMiddleware {σ : Type} (cacheBypassHeader : Option String)
    (globalTimeout : Int) (C : CacheIface σ) (st : σ) (req : Req)
    (now : String) : MwOut σ :=
  if (!optTruthy req.body) && (req.method == "POST") then
    ⟨.next, req, st, [], []⟩
  else
    match jsGetFieldOpt req.body "query" with
    | .error e => ⟨.thrown e, req, st, [], []⟩
    | .ok q =>
      if (!truthy q) || bypassTriggered cacheBypassHeader req then
        ⟨.next, req, st, [], []⟩
      else
        let bodyJson := stringifyBody req.body
        let bodyHash := md5hex bodyJson
        let req' := { req with bodyHash := some bodyHash }
        match C.hset st bodyHash "lastRequested" now globalTimeout with
        | .error e =>
            ⟨.thrown e, req', st,
              [.hset bodyHash "lastRequested" now globalTimeout], []⟩
        | .ok st1 =>
          match C.hget st1 bodyHash with
          | .error e =>
              ⟨.thrown e, req', st1,
                [.hset bodyHash "lastRequested" now globalTimeout, .hget bodyHash], []⟩
          | .ok cachedQuery =>
            let tr := [StoreOp.hset bodyHash "lastRequested" now globalTimeout,
                       StoreOp.hget bodyHash]
            match cachedQuery with
            | some rec =>
              match rec.lookup "response" with
              | some resp =>
                  if resp != "" then
                    match jsonParse resp with
                    | .error e => ⟨.thrown e, req', st1, tr, []⟩
                    | .ok v =>
                        ⟨.respond [(CACHE_HEADER, "true"), (CACHE_HASH_HEADER, bodyHash)]
                            (.vObj [("data", v)]),
                          req', st1, tr, []⟩
                  else ⟨.next, req', st1, tr, []⟩
              | none => ⟨.next, req', st1, tr, []⟩
            | none => ⟨.next, req', st1, tr, []⟩

/-- Result of the response interceptor: it always relays the upstream
response afterwards, so only the store, the attempted operations and
the reported errors are observable. -/
structure PrOut (σ : Type) where
  store : σ
  trace : List StoreOp
  reported : List PhaseErr

/-- The directive-strategy write (`queryCache.set(hasCache.id,
response.data, hasCache.timeout)`); reading `.id` off an absent
`_hasCache` throws inside the try, so it reports a set-phase error. -/
def directiveWrite {σ : Type} (C : CacheIface σ) (st : σ)
    (hasCache : Option (String × Int)) (data : JsVal) : PrOut σ :=
  match hasCache with
  | some (id, timeout) =>
      match C.set st id data timeout with
      | .error e => ⟨st, [.set id data timeout], [.setPhase e]⟩
      | .ok st' => ⟨st', [.set id data timeout], []⟩
  | none => ⟨st, [], [.setPhase "TypeError"]⟩

/-- `onProxyRes` (lines 129–152): when the request carries `_hasCache`
or a truthy `_bodyHash`, decode and `JSON.parse` the upstream body
inside a try; only when `!response.errors && response.data` write the
cache — via `hset` of the `request` and `response` fields when a truthy
hash is present, else via the scalar `set` under the directive id; any
throw or store rejection inside the try is reported via `errorOnSet`.
The upstream response is always relayed afterwards. -/
def onProxyRes {σ : Type} (globalTimeout : Int) (C : CacheIface σ)
    (st : σ) (req : Req) (decoded : Except String String) : PrOut σ :=
  if hasCacheTruthy req.hasCache || bodyHashTruthy req.bodyHash then
    match decoded with
    | .error e => ⟨st, [], [.setPhase e]⟩
    | .ok raw =>
      match jsonParse raw with
      | .error e => ⟨st, [], [.setPhase e]⟩
      | .ok response =>
        match jsGetField response "errors" with
        | .error e => ⟨st, [], [.setPhase e]⟩
        | .ok errs =>
          if truthy errs then ⟨st, [], []⟩
          else
            match jsGetField response "data" with
            | .error e => ⟨st, [], [.setPhase e]⟩
            | .ok data =>
              if truthy data then
                match req.bodyHash with
                | some h =>
                    if h != "" then
                      match C.hset st h "request" (stringifyBody req.body) globalTimeout with
                      | .error e =>
                          ⟨st, [.hset h "request" (stringifyBody req.body) globalTimeout],
                            [.setPhase e]⟩
                      | .ok st1 =>
                        match C.hset st1 h "response" (jsonStringify data) globalTimeout with
                        | .error e =>
                            ⟨st1, [.hset h "request" (stringifyBody req.body) globalTimeout,
                                   .hset h "response" (jsonStringify data) globalTimeout],
                              [.setPhase e]⟩
                        | .ok st2 =>
                            ⟨st2, [.hset h "request" (stringifyBody req.body) globalTimeout,
                                   .hset h "response" (jsonStringify data) globalTimeout], []⟩
                    else directiveWrite C st req.hasCache data
                | none => directiveWrite C st req.hasCache data
              else ⟨st, [], []⟩
  else ⟨st, [], []⟩

/-- How one full request through the composed stages ends: served from
cache by a phase, relayed from upstream, or failed with an uncaught
throw. -/
inductive ReqResult where
  | served : List (String × String) → JsVal → ReqResult
  | relayed : String → ReqResult
  | failed : String → ReqResult

/-- Observable outcome of one request through the pipeline
`directiveMiddleware → hashMiddleware → upstream → onProxyRes`. -/
structure PipeOut (σ : Type) where
  result : ReqResult
  store : σ
  trace : List StoreOp
  reported : List PhaseErr
  upstreamCalls : Nat
  finalReq : Req

/-- The per-request pipeline, composed in the order the factory returns
the stages for mounting (§2: Directive Phase, then Hash Phase, then the
proxy with its response interceptor).  `upstream` maps the forwarded
body (the one `onProxyReq` re-serializes) to the raw reply `decode`
yields; it is consulted only when both phases called `next()`. -/
def handleRequest {σ : Type} (env : GqlEnv) (cacheBypassHeader : Option String)
    (globalTimeout : Int) (C : CacheIface σ) (st : σ) (req : Req)
    (now : String) (upstream : Option JsVal → String) : PipeOut σ :=
  let d := directiveMiddleware env C st req
  match d.outcome with
  | .respond hs b => ⟨.served hs b, d.store, d.trace, d.reported, 0, d.req⟩
  | .thrown e => ⟨.failed e, d.store, d.trace, d.reported, 0, d.req⟩
  | .next =>
    let h := hashMiddleware cacheBypassHeader globalTimeout C d.store d.req now
    match h.outcome with
    | .respond hs b =>
        ⟨.served hs b, h.store, d.trace ++ h.trace, d.reported ++ h.reported, 0, h.req⟩
    | .thrown e =>
        ⟨.failed e, h.store, d.trace ++ h.trace, d.reported ++ h.reported, 0, h.req⟩
    | .next =>
      let raw := upstream h.req.body
      let p := onProxyRes globalTimeout C h.store h.req (.ok raw)
      ⟨.relayed raw, p.store, d.trace ++ h.trace ++ p.trace,
        d.reported ++ h.reported ++ p.reported, 1, h.req⟩

/-- The scalar-get keys attempted in a trace. -/
def getKeys (t : List StoreOp) : List String :=
  t.filterMap fun op => match op with | .get k => some k | _ => none

/-- The scalar-set keys attempted in a trace. -/
def setKeys (t : List StoreOp) : List String :=
  t.filterMap fun op => match op with | .set k _ _ => some k | _ => none

/-- The hash-record keys attempted in a trace (both `hget` and `hset`). -/
def hashKeys (t : List StoreOp) : List String :=
  t.filterMap fun op =>
    match op with | .hget k => some k | .hset k _ _ _ => some k | _ => none

/-- The `ListStore` hash-field update, named for reasoning. -/
def hsetStore (st : ListStore) (k f v : String) : ListStore :=
  { st with hashes := setAssoc st.hashes k (setAssoc ((st.hashes.lookup k).getD []) f v) }

/-- One field of a hash record in a `ListStore`. -/
def hrecField (st : ListStore) (k f : String) : Option String :=
  (st.hashes.lookup k).bind (·.lookup f)

theorem lookup_setAssoc_self {α : Type} (l : List (String × α)) (k : String) (v : α) :
    (setAssoc l k v).lookup k = some v := by
  induction l with
  | nil => simp [setAssoc]
  | cons p rest ih =>
      obtain ⟨k', w⟩ := p
      by_cases h : k' = k
      · subst h
        simp [setAssoc]
      · have hb : (k == k') = false := by simp [Ne.symm h]
        simp [setAssoc, h, List.lookup, hb, ih]

theorem lookup_setAssoc_ne {α : Type} (l : List (String × α)) (k k' : String) (v : α)
    (h : k' ≠ k) : (setAssoc l k v).lookup k' = l.lookup k' := by
  induction l with
  | nil =>
      have hb : (k' == k) = false := by simp [h]
      simp [setAssoc, List.lookup, hb]
  | cons p rest ih =>
      obtain ⟨k'', w⟩ := p
      by_cases h2 : k'' = k
      · subst h2
        have hb : (k' == k'') = false := by simp [h]
        simp [setAssoc, List.lookup, hb]
      · cases hb : (k' == k'') <;> simp [setAssoc, h2, List.lookup, hb, ih]

theorem hrecField_hsetStore_eq (st : ListStore) (k f v : String) :
    hrecField (hsetStore st k f v) k f = some v := by
  simp [hrecField, hsetStore, lookup_setAssoc_self]

theorem hrecField_hsetStore_ne (st : ListStore) (k f f' v : String) (h : f' ≠ f) :
    hrecField (hsetStore st k f v) k f' = hrecField st k f' := by
  simp only [hrecField, hsetStore, lookup_setAssoc_self, Option.bind]
  rw [lookup_setAssoc_ne _ _ _ _ h]
  cases hl : st.hashes.lookup k with
  | none => simp [List.lookup]
  | some rec => simp

theorem md5hex_ne_empty (s : String) : (md5hex s != "") = true := by
  have h : md5hex s ≠ "" := by
    intro h
    have : (md5hex s).data = "".data := by rw [h]
    simp [md5hex, String.data_append] at this
  simpa using h

theorem jsonParse_empty : jsonParse "" = .error "Unexpected end of JSON input" := by rfl

theorem jsGetField_ok_of_truthy (v : JsVal) (f : String) (h : truthy v = true) :
    ∃ w, jsGetField v f = .ok w := by
  cases v <;> simp_all [truthy, jsGetField]
  case vObj fs =>
    cases fs.lookup f <;> simp

/-- A small concrete instance of the external parser/printer interface,
used by the witnesses and counterexamples: a document is its text, a
query starting with `!` fails to parse, the directive is the literal
token `@cache`, stripping removes `" @cache"`, and the computed
arguments are the fixed pair `("abc", 60)`. -/
def simpleEnv : GqlEnv where
  parse v :=
    match v with
    | .vStr s => if s = "!bad" then .error "Syntax Error" else .ok s
    | _ => .error "Syntax Error"
  hasCacheDirective d := d == "q @cache"
  removeCacheDirective d := if d = "q @cache" then .ok "q" else .ok d
  calcArgs _ _ _ := .ok ("abc", 60)
  print d := d

/-- A body whose query carries the directive. -/
def dirBody : JsVal := .vObj [("query", .vStr "q @cache")]

/-- A body with a plain query. -/
def plainBody : JsVal := .vObj [("query", .vStr "q")]

/-- A fresh POST request around a body. -/
def mkReq (b : Option JsVal) : Req := ⟨b, "POST", [], none, none⟩

/-- A store whose `get` always rejects. -/
def failGetIface : CacheIface ListStore :=
  { listIface with get := fun _ _ => .error "lookup failed" }

/-- A store whose `hset` always rejects. -/
def failHsetIface : CacheIface ListStore :=
  { listIface with hset := fun _ _ _ _ _ => .error "store down" }

example : (directiveMiddleware simpleEnv listIface emptyStore
    ⟨some (.vObj [("query", .vStr "!bad")]), "POST", [], none, none⟩).outcome
    = .thrown "Syntax Error" := by rfl

example : (directiveMiddleware simpleEnv listIface emptyStore
    ⟨none, "GET", [], none, none⟩).outcome = .thrown "TypeError" := by rfl

example : (directiveMiddleware simpleEnv failGetIface emptyStore (mkReq (some dirBody))).outcome
    = .next := by rfl

example : (directiveMiddleware simpleEnv failGetIface emptyStore
    (mkReq (some dirBody))).reported = [.getPhase "lookup failed"] := by rfl

/-- A store whose `hget` always rejects. -/
def failHgetIface : CacheIface ListStore :=
  { listIface with hget := fun _ _ => .error "read failed" }

/-- C1 (counterexample): a query parse error during step 2 of the
Directive Phase is NOT caught — `parse` sits before the try block — so
the middleware throws instead of reporting a get-phase error and
continuing; the claim that every failure during steps 2–4 including a
parse error is caught fails on this input. -/
theorem C1_counterexample :
    (directiveMiddleware simpleEnv listIface emptyStore
        ⟨some (.vObj [("query", .vStr "!bad")]), "POST", [], none, none⟩).outcome
      = .thrown "Syntax Error" ∧
    (directiveMiddleware simpleEnv listIface emptyStore
        ⟨some (.vObj [("query", .vStr "!bad")]), "POST", [], none, none⟩).reported
      = [] :=
  ⟨rfl, rfl⟩

/-- C1 (amended): in the Directive Phase, every failure during steps
3–4 — directive removal, argument extraction, and the cache lookup,
i.e. anything inside the try block — is caught, reported as a get-phase
error, and the request continues unmodified to the next phase; a query
parse error in step 2, however, occurs before the try block and
propagates uncaught. -/
theorem C1_tryCaught {σ : Type} (env : GqlEnv) (C : CacheIface σ) (st : σ)
    (req : Req) (b q : JsVal) (d : GqlDoc)
    (hb : req.body = some b) (htb : truthy b = true)
    (hq : jsGetField b "query" = .ok q) (ht : truthy q = true)
    (hp : env.parse q = .ok d) (hd : env.hasCacheDirective d = true) :
    (∀ e, (directiveMiddleware env C st req).outcome ≠ .thrown e) ∧
    ((directiveMiddleware env C st req).reported ≠ [] →
      (directiveMiddleware env C st req).outcome = .next ∧
      (directiveMiddleware env C st req).req = req ∧
      ∃ m, (directiveMiddleware env C st req).reported = [.getPhase m]) := by
  obtain ⟨vars, hv⟩ := jsGetField_ok_of_truthy b "variables" htb
  unfold directiveMiddleware
  simp only [hb, optTruthy, htb, Bool.not_true, Bool.false_and, Bool.false_eq_true,
    if_false, jsGetFieldOpt, hq, ht, hp, hd, hv, if_true]
  cases hr : env.removeCacheDirective d with
  | error e => simp [hr]
  | ok nq =>
    cases hc : env.calcArgs d vars req with
    | error e => simp [hr, hc]
    | ok idt =>
      obtain ⟨id, t⟩ := idt
      cases hg : C.get st id with
      | error e => simp [hr, hc, hg]
      | ok pd =>
        cases htp : truthy pd <;> simp [hr, hc, hg, htp]

/-- C2 (counterexample): a bodyless request is skipped only when its
method is POST; a bodyless GET request makes both phases throw a
`TypeError` reading `req.body.query`, so it does not pass through to
the next stage — refuting "regardless of HTTP method". -/
theorem C2_counterexample :
    (directiveMiddleware simpleEnv listIface emptyStore
        ⟨none, "GET", [], none, none⟩).outcome = .thrown "TypeError" ∧
    (hashMiddleware none 0 listIface emptyStore
        ⟨none, "GET", [], none, none⟩ "t0").outcome = .thrown "TypeError" :=
  ⟨rfl, rfl⟩

/-- C2 (amended): for every POST request lacking a body, and every
request whose body lacks truthy query text, both the Directive Phase
and the Hash Phase are no-ops: next is called with the request, store,
trace and error reports untouched.  (A bodyless non-POST request is
not a no-op: both phases throw.) -/
theorem C2_noop {σ : Type} (env : GqlEnv) (cbh : Option String) (gt : Int)
    (C : CacheIface σ) (st : σ) (req : Req) (now : String)
    (h : (req.body = none ∧ req.method = "POST") ∨
      ∃ q, jsGetFieldOpt req.body "query" = .ok q ∧ truthy q = false) :
    directiveMiddleware env C st req = ⟨.next, req, st, [], []⟩ ∧
    hashMiddleware cbh gt C st req now = ⟨.next, req, st, [], []⟩ := by
  rcases h with ⟨hb, hm⟩ | ⟨q, hq, ht⟩
  · refine ⟨?_, ?_⟩
    · unfold directiveMiddleware
      simp [hb, hm, optTruthy]
    · unfold hashMiddleware
      simp [hb, hm, optTruthy]
  · refine ⟨?_, ?_⟩
    · unfold directiveMiddleware
      by_cases hg : ((!optTruthy req.body) && (req.method == "POST")) = true <;>
        simp [hg, hq, ht]
    · unfold hashMiddleware
      by_cases hg : ((!optTruthy req.body) && (req.method == "POST")) = true <;>
        simp [hg, hq, ht]

/-- C3 (counterexample): a rejected `hset` of the last-requested field
in the Hash Phase is not caught: the middleware ends in an uncaught
throw with nothing reported to the Error Policy, and `next` is never
called — the request does not continue. -/
theorem C3_counterexample :
    (hashMiddleware none 0 failHsetIface emptyStore (mkReq (some plainBody)) "t0").outcome
      = .thrown "store down" ∧
    (hashMiddleware none 0 failHsetIface emptyStore (mkReq (some plainBody)) "t0").reported
      = [] :=
  ⟨rfl, rfl⟩

/-- C3 (amended): in the Hash Phase a failure of a cache-store
operation (the `hset` of the last-requested field or the `hget`
lookup) is NOT handled fail-open: there is no try/catch, so the
rejection propagates out of the middleware uncaught, nothing is
reported to the Error Policy, and the request does not continue to the
next stage. -/
theorem C3_storeFailureThrows {σ : Type} (cbh : Option String) (gt : Int)
    (C : CacheIface σ) (st : σ) (req : Req) (now : String) (b q : JsVal) (e : String)
    (hb : req.body = some b) (htb : truthy b = true)
    (hq : jsGetField b "query" = .ok q) (ht : truthy q = true)
    (hbp : bypassTriggered cbh req = false)
    (hfail : C.hset st (md5hex (jsonStringify b)) "lastRequested" now gt = .error e ∨
      ∃ st1, C.hset st (md5hex (jsonStringify b)) "lastRequested" now gt = .ok st1 ∧
        C.hget st1 (md5hex (jsonStringify b)) = .error e) :
    (hashMiddleware cbh gt C st req now).outcome = .thrown e ∧
    (hashMiddleware cbh gt C st req now).reported = [] := by
  unfold hashMiddleware
  simp only [hb, optTruthy, htb, Bool.not_true, Bool.false_and, Bool.false_eq_true,
    if_false, jsGetFieldOpt, hq, ht, hbp, Bool.or_false, stringifyBody]
  rcases hfail with hf | ⟨st1, hok, hf⟩
  · simp [hf]
  · simp [hok, hf]

/-- C10: in the Directive Phase a lookup counts as a hit only when the
stored value is truthy: when the directive-derived id maps to a falsy
stored value (`null` for absent, or `undefined`, `""`, `0`, `false`),
the phase treats it as a miss — it attaches `{id, timeout}` pending
state, rewrites the outgoing query to the directive-stripped text, and
calls next so the request continues upstream. -/
theorem C10_falsyMiss {σ : Type} (env : GqlEnv) (C : CacheIface σ) (st : σ)
    (req : Req) (b q vars v : JsVal) (d nq : GqlDoc) (id : String) (t : Int)
    (hb : req.body = some b) (htb : truthy b = true)
    (hq : jsGetField b "query" = .ok q) (ht : truthy q = true)
    (hp : env.parse q = .ok d) (hd : env.hasCacheDirective d = true)
    (hr : env.removeCacheDirective d = .ok nq)
    (hv : jsGetField b "variables" = .ok vars)
    (hc : env.calcArgs d vars req = .ok (id, t))
    (hg : C.get st id = .ok v) (hf : truthy v = false) :
    directiveMiddleware env C st req =
      ⟨.next,
        { req with hasCache := some (id, t),
                   body := some (spreadSetQuery req.body (env.print nq)) },
        st, [.get id], []⟩ := by
  unfold directiveMiddleware
  simp [hb, optTruthy, htb, jsGetFieldOpt, hq, ht, hp, hd, hr, hv, hc, hg, hf]

theorem C1_tryCaught_witness :
    (∀ e, (directiveMiddleware simpleEnv failGetIface emptyStore (mkReq (some dirBody))).outcome
        ≠ .thrown e) ∧
    ((directiveMiddleware simpleEnv failGetIface emptyStore (mkReq (some dirBody))).reported ≠ [] →
      (directiveMiddleware simpleEnv failGetIface emptyStore (mkReq (some dirBody))).outcome
          = .next ∧
      (directiveMiddleware simpleEnv failGetIface emptyStore (mkReq (some dirBody))).req
          = mkReq (some dirBody) ∧
      ∃ m, (directiveMiddleware simpleEnv failGetIface emptyStore (mkReq (some dirBody))).reported
          = [.getPhase m]) :=
  C1_tryCaught simpleEnv failGetIface emptyStore (mkReq (some dirBody)) dirBody
    (.vStr "q @cache") "q @cache" rfl rfl rfl rfl rfl rfl

theorem C2_noop_witness :
    directiveMiddleware simpleEnv listIface emptyStore ⟨some (.vObj []), "GET", [], none, none⟩
      = ⟨.next, ⟨some (.vObj []), "GET", [], none, none⟩, emptyStore, [], []⟩ ∧
    hashMiddleware none 0 listIface emptyStore ⟨some (.vObj []), "GET", [], none, none⟩ "t0"
      = ⟨.next, ⟨some (.vObj []), "GET", [], none, none⟩, emptyStore, [], []⟩ :=
  C2_noop simpleEnv none 0 listIface emptyStore ⟨some (.vObj []), "GET", [], none, none⟩ "t0"
    (.inr ⟨.vUndefined, rfl, rfl⟩)

theorem C3_storeFailureThrows_witness :
    (hashMiddleware none 0 failHgetIface emptyStore (mkReq (some plainBody)) "t0").outcome
      = .thrown "read failed" ∧
    (hashMiddleware none 0 failHgetIface emptyStore (mkReq (some plainBody)) "t0").reported
      = [] :=
  C3_storeFailureThrows none 0 failHgetIface emptyStore (mkReq (some plainBody)) "t0"
    plainBody (.vStr "q") "read failed" rfl rfl rfl rfl rfl (.inr ⟨_, rfl, rfl⟩)

theorem C10_falsyMiss_witness :
    directiveMiddleware simpleEnv listIface emptyStore (mkReq (some dirBody))
      = ⟨.next,
          { mkReq (some dirBody) with
              hasCache := some ("abc", 60),
              body := some (spreadSetQuery (some dirBody) "q") },
          emptyStore, [.get "abc"], []⟩ :=
  C10_falsyMiss simpleEnv listIface emptyStore (mkReq (some dirBody)) dirBody
    (.vStr "q @cache") .vUndefined .vNull "q @cache" "q" "abc" 60
    rfl rfl rfl rfl rfl rfl rfl rfl rfl rfl rfl

/-- A cacheable upstream reply, serialized. -/
def okRaw : String := "\x7b\"data\":\x7b\"x\":1\x7d\x7d"

/-- The payload of `okRaw`. -/
def okData : JsVal := .vObj [("x", .vNum 1)]

/-- The decoded form of `okRaw`. -/
def okResp : JsVal := .vObj [("data", okData)]

example : jsonParse okRaw = .ok okResp := by rfl

/-- A request carrying both directive-pending state and a body hash at
response time. -/
def bothReq : Req :=
  ⟨some plainBody, "POST", [], some ("abc", 60), some (md5hex (jsonStringify plainBody))⟩

/-- C4: for a cacheable decoded response, the interceptor writes via
the hash strategy (`hset` of the `request` and `response` fields) when
the request carries a (truthy) body hash, and otherwise, when it
carries directive-pending state, via the directive strategy (a scalar
`set` under the directive id with the directive timeout); the trace
equalities show exactly one strategy's write path runs. -/
theorem C4_writeStrategySelection (gt : Int) (st : ListStore) (req : Req)
    (raw : String) (resp errs data : JsVal)
    (hraw : jsonParse raw = .ok resp)
    (he : jsGetField resp "errors" = .ok errs) (het : truthy errs = false)
    (hda : jsGetField resp "data" = .ok data) (hdt : truthy data = true) :
    (bodyHashTruthy req.bodyHash = true →
      ∃ h, req.bodyHash = some h ∧
        (onProxyRes gt listIface st req (.ok raw)).trace
          = [.hset h "request" (stringifyBody req.body) gt,
             .hset h "response" (jsonStringify data) gt]) ∧
    (bodyHashTruthy req.bodyHash = false → hasCacheTruthy req.hasCache = true →
      ∃ id t, req.hasCache = some (id, t) ∧
        (onProxyRes gt listIface st req (.ok raw)).trace = [.set id data t]) := by
  constructor
  · intro hbt
    cases hbh : req.bodyHash with
    | none => rw [hbh] at hbt; simp [bodyHashTruthy] at hbt
    | some h =>
      refine ⟨h, rfl, ?_⟩
      rw [hbh] at hbt
      have hne : (h != "") = true := hbt
      unfold onProxyRes
      simp [hbh, bodyHashTruthy, hne, hraw, he, het, hda, hdt, listIface]
  · intro hbt hct
    cases hhc : req.hasCache with
    | none => rw [hhc] at hct; simp [hasCacheTruthy] at hct
    | some idt =>
      obtain ⟨id, t⟩ := idt
      refine ⟨id, t, rfl, ?_⟩
      unfold onProxyRes
      cases hbh : req.bodyHash with
      | none =>
          simp [hbh, hhc, hasCacheTruthy, hraw, he, het, hda, hdt, directiveWrite, listIface]
      | some h =>
          rw [hbh] at hbt
          have hne : (h != "") = false := hbt
          simp [hbh, hhc, hasCacheTruthy, hne, hraw, he, het, hda, hdt,
            directiveWrite, listIface]

theorem C4_writeStrategySelection_witness :
    (bodyHashTruthy bothReq.bodyHash = true →
      ∃ h, bothReq.bodyHash = some h ∧
        (onProxyRes 0 listIface emptyStore bothReq (.ok okRaw)).trace
          = [.hset h "request" (stringifyBody bothReq.body) 0,
             .hset h "response" (jsonStringify okData) 0]) ∧
    (bodyHashTruthy bothReq.bodyHash = false → hasCacheTruthy bothReq.hasCache = true →
      ∃ id t, bothReq.hasCache = some (id, t) ∧
        (onProxyRes 0 listIface emptyStore bothReq (.ok okRaw)).trace = [.set id okData t]) :=
  C4_writeStrategySelection 0 emptyStore bothReq okRaw okResp .vUndefined okData
    rfl rfl rfl rfl rfl

/-- C5 (counterexample): at response time, a request carrying BOTH
directive-pending state and a body hash is written via the hash
strategy: the trace holds the two `hset`s, no scalar `set` is
attempted, and the scalar store stays empty — so directive-style state
does not take precedence and hash presence is not checked merely as a
fallback. -/
theorem C5_counterexample :
    (onProxyRes 0 listIface emptyStore bothReq (.ok okRaw)).trace
      = [.hset (md5hex (jsonStringify plainBody)) "request" (jsonStringify plainBody) 0,
         .hset (md5hex (jsonStringify plainBody)) "response" (jsonStringify okData) 0] ∧
    setKeys (onProxyRes 0 listIface emptyStore bothReq (.ok okRaw)).trace = [] ∧
    (onProxyRes 0 listIface emptyStore bothReq (.ok okRaw)).store.scalars = [] :=
  ⟨rfl, rfl, rfl⟩

/-- C5 (amended): hash-style state takes precedence for the cache
write: whenever a request carries both directive-pending state and a
(truthy) body hash and the decoded response is cacheable, the
interceptor writes via `hset` under the hash and never attempts the
directive scalar `set`; the interceptor checks directive state only as
the fallback when the hash is absent or falsy. -/
theorem C5_hashPrecedence (gt : Int) (st : ListStore) (req : Req)
    (raw : String) (resp errs data : JsVal) (id : String) (t : Int) (h : String)
    (hhc : req.hasCache = some (id, t)) (hbh : req.bodyHash = some h)
    (hne : (h != "") = true)
    (hraw : jsonParse raw = .ok resp)
    (he : jsGetField resp "errors" = .ok errs) (het : truthy errs = false)
    (hda : jsGetField resp "data" = .ok data) (hdt : truthy data = true) :
    (onProxyRes gt listIface st req (.ok raw)).trace
      = [.hset h "request" (stringifyBody req.body) gt,
         .hset h "response" (jsonStringify data) gt] ∧
    setKeys (onProxyRes gt listIface st req (.ok raw)).trace = [] ∧
    (onProxyRes gt listIface st req (.ok raw)).store.scalars = st.scalars := by
  unfold onProxyRes
  simp [hbh, hhc, bodyHashTruthy, hne, hraw, he, het, hda, hdt, listIface,
    setKeys, hsetStore]

theorem C5_hashPrecedence_witness :
    (onProxyRes 0 listIface emptyStore bothReq (.ok okRaw)).trace
      = [.hset (md5hex (jsonStringify plainBody)) "request" (stringifyBody bothReq.body) 0,
         .hset (md5hex (jsonStringify plainBody)) "response" (jsonStringify okData) 0] ∧
    setKeys (onProxyRes 0 listIface emptyStore bothReq (.ok okRaw)).trace = [] ∧
    (onProxyRes 0 listIface emptyStore bothReq (.ok okRaw)).store.scalars
      = emptyStore.scalars :=
  C5_hashPrecedence 0 emptyStore bothReq okRaw okResp .vUndefined okData "abc" 60
    (md5hex (jsonStringify plainBody)) rfl rfl rfl rfl rfl rfl rfl rfl

/-- C6: when the decoded upstream body carries an error envelope (an
`errors` array) or lacks a truthy success payload (`data` absent,
`null`, or otherwise falsy), the Response Interceptor performs no store
operation at all — no scalar `set` and no `hset` — and leaves the store
untouched, no matter what pending state or hash the request carries. -/
theorem C6_neverCacheErrors {σ : Type} (gt : Int) (C : CacheIface σ) (st : σ)
    (req : Req) (raw : String) (resp errs : JsVal)
    (hraw : jsonParse raw = .ok resp)
    (he : jsGetField resp "errors" = .ok errs)
    (h : (∃ l, errs = .vArr l) ∨
      ∃ data, jsGetField resp "data" = .ok data ∧ truthy data = false) :
    (onProxyRes gt C st req (.ok raw)).trace = [] ∧
    (onProxyRes gt C st req (.ok raw)).store = st := by
  unfold onProxyRes
  by_cases hg : (hasCacheTruthy req.hasCache || bodyHashTruthy req.bodyHash) = true
  · rcases h with ⟨l, hl⟩ | ⟨data, hda, hdt⟩
    · subst hl
      simp [hg, hraw, he, truthy]
    · by_cases hte : truthy errs = true
      · simp [hg, hraw, he, hte]
      · simp [hg, hraw, he, hte, hda, hdt]
  · simp [hg]

theorem C6_neverCacheErrors_witness :
    (onProxyRes 0 listIface emptyStore bothReq
        (.ok "\x7b\"errors\":[],\"data\":\x7b\"x\":1\x7d\x7d")).trace = [] ∧
    (onProxyRes 0 listIface emptyStore bothReq
        (.ok "\x7b\"errors\":[],\"data\":\x7b\"x\":1\x7d\x7d")).store = emptyStore :=
  C6_neverCacheErrors 0 listIface emptyStore bothReq
    "\x7b\"errors\":[],\"data\":\x7b\"x\":1\x7d\x7d"
    (.vObj [("errors", .vArr []), ("data", okData)]) (.vArr [])
    rfl rfl (.inl ⟨[], rfl⟩)

theorem listIface_hset (st : ListStore) (k f v : String) (t : Int) :
    listIface.hset st k f v t = .ok (hsetStore st k f v) := rfl

theorem listIface_hget (st : ListStore) (k : String) :
    listIface.hget st k = .ok (st.hashes.lookup k) := rfl

theorem lookup_setField_self (l : List (String × JsVal)) (f : String) (v : JsVal) :
    (setField l f v).lookup f = some v := by
  induction l with
  | nil => simp [setField]
  | cons p rest ih =>
      obtain ⟨k, w⟩ := p
      by_cases h : k = f
      · subst h
        simp [setField]
      · have hb : (f == k) = false := by simp [Ne.symm h]
        simp [setField, h, List.lookup, hb, ih]

theorem jsGetField_spreadSetQuery (ob : Option JsVal) (s : String) :
    jsGetField (spreadSetQuery ob s) "query" = .ok (.vStr s) := by
  cases ob with
  | none => simp [spreadSetQuery, jsGetField, List.lookup]
  | some v =>
      cases v <;> simp [spreadSetQuery, jsGetField, List.lookup, lookup_setField_self]

theorem truthy_spreadSetQuery (ob : Option JsVal) (s : String) :
    truthy (spreadSetQuery ob s) = true := by
  cases ob with
  | none => rfl
  | some v => cases v <;> rfl

/-- The Directive Phase when the query carries no directive: a pure
pass-through (used by several pipeline results). -/
theorem directive_passthrough {σ : Type} (env : GqlEnv) (C : CacheIface σ) (st : σ)
    (req : Req) (b q : JsVal) (d : GqlDoc)
    (hb : req.body = some b) (htb : truthy b = true)
    (hq : jsGetField b "query" = .ok q) (ht : truthy q = true)
    (hp : env.parse q = .ok d) (hd : env.hasCacheDirective d = false) :
    directiveMiddleware env C st req = ⟨.next, req, st, [], []⟩ := by
  unfold directiveMiddleware
  simp [hb, optTruthy, htb, jsGetFieldOpt, hq, ht, hp, hd]

/-- The Directive Phase on a directive-carrying query whose derived id
reads back a falsy value: the miss branch. -/
theorem directive_miss {σ : Type} (env : GqlEnv) (C : CacheIface σ) (st : σ)
    (req : Req) (b q vars v : JsVal) (d nq : GqlDoc) (id : String) (t : Int)
    (hb : req.body = some b) (htb : truthy b = true)
    (hq : jsGetField b "query" = .ok q) (ht : truthy q = true)
    (hp : env.parse q = .ok d) (hd : env.hasCacheDirective d = true)
    (hr : env.removeCacheDirective d = .ok nq)
    (hv : jsGetField b "variables" = .ok vars)
    (hc : env.calcArgs d vars req = .ok (id, t))
    (hg : C.get st id = .ok v) (hf : truthy v = false) :
    directiveMiddleware env C st req =
      ⟨.next,
        { req with hasCache := some (id, t),
                   body := some (spreadSetQuery req.body (env.print nq)) },
        st, [.get id], []⟩ := by
  unfold directiveMiddleware
  simp [hb, optTruthy, htb, jsGetFieldOpt, hq, ht, hp, hd, hr, hv, hc, hg, hf]

/-- Whatever the store does, the Hash Phase attaches `_bodyHash` before
its first store call, so the request it hands on (or dies with) always
carries the hash of the serialized body it saw. -/
theorem hashMiddleware_attaches_hash {σ : Type} (cbh : Option String) (gt : Int)
    (C : CacheIface σ) (st : σ) (req : Req) (now : String) (b q : JsVal)
    (hb : req.body = some b) (htb : truthy b = true)
    (hq : jsGetField b "query" = .ok q) (ht : truthy q = true)
    (hbp : bypassTriggered cbh req = false) :
    (hashMiddleware cbh gt C st req now).req =
      { req with bodyHash := some (md5hex (jsonStringify b)) } := by
  unfold hashMiddleware
  simp only [hb, optTruthy, htb, Bool.not_true, Bool.false_and, Bool.false_eq_true,
    if_false, jsGetFieldOpt, hq, ht, hbp, Bool.not_true, Bool.false_or, Bool.or_false,
    stringifyBody]
  repeat' split
  all_goals simp

/-- The Hash Phase on the `ListStore` backend when the record has no
`response` field: writes the last-requested marker, reads the record
back, and passes the request on with its hash attached. -/
theorem hash_miss (cbh : Option String) (gt : Int) (st : ListStore) (req : Req)
    (now : String) (b q : JsVal)
    (hb : req.body = some b) (htb : truthy b = true)
    (hq : jsGetField b "query" = .ok q) (ht : truthy q = true)
    (hbp : bypassTriggered cbh req = false)
    (hmiss : hrecField st (md5hex (jsonStringify b)) "response" = none) :
    hashMiddleware cbh gt listIface st req now =
      ⟨.next, { req with bodyHash := some (md5hex (jsonStringify b)) },
        hsetStore st (md5hex (jsonStringify b)) "lastRequested" now,
        [.hset (md5hex (jsonStringify b)) "lastRequested" now gt,
         .hget (md5hex (jsonStringify b))], []⟩ := by
  have hresp : (setAssoc ((st.hashes.lookup (md5hex (jsonStringify b))).getD [])
      "lastRequested" now).lookup "response" = none := by
    rw [lookup_setAssoc_ne _ _ _ _ (by decide)]
    cases hl : st.hashes.lookup (md5hex (jsonStringify b)) with
    | none => simp [List.lookup]
    | some rec0 =>
        have h2 := hmiss
        simp [hrecField, hl] at h2
        simpa using h2
  unfold hashMiddleware
  simp only [hb, optTruthy, htb, Bool.not_true, Bool.false_and, Bool.false_eq_true,
    if_false, jsGetFieldOpt, hq, ht, hbp, Bool.or_false, stringifyBody,
    listIface_hset, listIface_hget]
  simp [hsetStore, lookup_setAssoc_self, hresp]

/-- The Hash Phase on the `ListStore` backend when the record already
holds a truthy, well-formed `response` field: a cache hit answered with
the parsed stored payload and both marker headers. -/
theorem hash_hit (cbh : Option String) (gt : Int) (st : ListStore) (req : Req)
    (now : String) (b q : JsVal) (r : String) (v : JsVal)
    (hb : req.body = some b) (htb : truthy b = true)
    (hq : jsGetField b "query" = .ok q) (ht : truthy q = true)
    (hbp : bypassTriggered cbh req = false)
    (hhit : hrecField st (md5hex (jsonStringify b)) "response" = some r)
    (hne : (r != "") = true) (hjp : jsonParse r = .ok v) :
    hashMiddleware cbh gt listIface st req now =
      ⟨.respond [(CACHE_HEADER, "true"), (CACHE_HASH_HEADER, md5hex (jsonStringify b))]
          (.vObj [("data", v)]),
        { req with bodyHash := some (md5hex (jsonStringify b)) },
        hsetStore st (md5hex (jsonStringify b)) "lastRequested" now,
        [.hset (md5hex (jsonStringify b)) "lastRequested" now gt,
         .hget (md5hex (jsonStringify b))], []⟩ := by
  have hresp : (setAssoc ((st.hashes.lookup (md5hex (jsonStringify b))).getD [])
      "lastRequested" now).lookup "response" = some r := by
    rw [lookup_setAssoc_ne _ _ _ _ (by decide)]
    cases hl : st.hashes.lookup (md5hex (jsonStringify b)) with
    | none => simp [hrecField, hl] at hhit
    | some rec0 =>
        have h2 := hhit
        simp [hrecField, hl] at h2
        simpa using h2
  unfold hashMiddleware
  simp only [hb, optTruthy, htb, Bool.not_true, Bool.false_and, Bool.false_eq_true,
    if_false, jsGetFieldOpt, hq, ht, hbp, Bool.or_false, stringifyBody,
    listIface_hset, listIface_hget]
  simp [hsetStore, lookup_setAssoc_self, hresp, hne, hjp]

/-- The Response Interceptor's hash-strategy write on the `ListStore`
backend: both fields written under the request's hash. -/
theorem onProxyRes_hashWrite (gt : Int) (st : ListStore) (req : Req) (raw : String)
    (resp errs data : JsVal) (h : String)
    (hbh : req.bodyHash = some h) (hne : (h != "") = true)
    (hraw : jsonParse raw = .ok resp)
    (he : jsGetField resp "errors" = .ok errs) (het : truthy errs = false)
    (hda : jsGetField resp "data" = .ok data) (hdt : truthy data = true) :
    onProxyRes gt listIface st req (.ok raw) =
      ⟨hsetStore (hsetStore st h "request" (stringifyBody req.body)) h "response"
          (jsonStringify data),
        [.hset h "request" (stringifyBody req.body) gt,
         .hset h "response" (jsonStringify data) gt], []⟩ := by
  unfold onProxyRes
  simp [hbh, bodyHashTruthy, hne, hraw, he, het, hda, hdt, listIface_hset]

/-- C8 (amended): the content hash attached by the Hash Phase is the
digest of the serialized request body **as it stands when that phase
runs**, i.e. after the Directive Phase's rewrite: when a directive was
present and missed, the hashed bytes are those of the
directive-stripped body, so directive removal does affect the hash. -/
theorem C8_hashOfStrippedBody {σ : Type} (env : GqlEnv) (cbh : Option String) (gt : Int)
    (C : CacheIface σ) (st : σ) (req : Req) (now : String)
    (upstream : Option JsVal → String)
    (b q vars v : JsVal) (d nq : GqlDoc) (id : String) (t : Int)
    (hb : req.body = some b) (htb : truthy b = true)
    (hq : jsGetField b "query" = .ok q) (ht : truthy q = true)
    (hp : env.parse q = .ok d) (hd : env.hasCacheDirective d = true)
    (hr : env.removeCacheDirective d = .ok nq)
    (hv : jsGetField b "variables" = .ok vars)
    (hc : env.calcArgs d vars req = .ok (id, t))
    (hg : C.get st id = .ok v) (hf : truthy v = false)
    (hpr : (env.print nq != "") = true)
    (hbp : bypassTriggered cbh
        { req with hasCache := some (id, t),
                   body := some (spreadSetQuery req.body (env.print nq)) } = false) :
    (handleRequest env cbh gt C st req now upstream).finalReq.bodyHash
      = some (md5hex (jsonStringify (spreadSetQuery req.body (env.print nq)))) := by
  have hDmiss := directive_miss env C st req b q vars v d nq id t
    hb htb hq ht hp hd hr hv hc hg hf
  have hreq' := hashMiddleware_attaches_hash cbh gt C st
    { req with hasCache := some (id, t),
               body := some (spreadSetQuery req.body (env.print nq)) }
    now (spreadSetQuery req.body (env.print nq)) (.vStr (env.print nq))
    rfl (truthy_spreadSetQuery _ _) (jsGetField_spreadSetQuery _ _) hpr hbp
  unfold handleRequest
  rw [hDmiss]
  cases ho : (hashMiddleware cbh gt C st
      { req with hasCache := some (id, t),
                 body := some (spreadSetQuery req.body (env.print nq)) } now).outcome <;>
    simp [ho, hreq']

/-- C8 (counterexample): a directive-carrying request whose directive
misses gets its body rewritten by the Directive Phase before the Hash
Phase runs, so the attached hash is the digest of the stripped body and
differs from the digest of the body as parsed — the claim that the
hashed bytes predate directive stripping fails on this input. -/
theorem C8_counterexample :
    (handleRequest simpleEnv none 0 listIface emptyStore (mkReq (some dirBody)) "t0"
        (fun _ => okRaw)).finalReq.bodyHash
      = some (md5hex (jsonStringify (spreadSetQuery (some dirBody) "q"))) ∧
    md5hex (jsonStringify (spreadSetQuery (some dirBody) "q"))
      ≠ md5hex (jsonStringify dirBody) := by
  refine ⟨rfl, ?_⟩
  decide

/-- C9: submitting the identical directive-free request twice under
hash-based caching, with the store initially lacking the `response`
field for its hash and the first upstream reply cacheable: the
last-requested field is written on both calls, the upstream is invoked
only on the first call, and the second call is served from cache with
the payload stored by the first call. -/
theorem C9_idempotent (env : GqlEnv) (cbh : Option String) (gt : Int)
    (st : ListStore) (req : Req) (now1 now2 : String)
    (upstream : Option JsVal → String)
    (b q : JsVal) (d : GqlDoc) (resp errs data : JsVal)
    (hb : req.body = some b) (htb : truthy b = true)
    (hq : jsGetField b "query" = .ok q) (ht : truthy q = true)
    (hp : env.parse q = .ok d) (hdF : env.hasCacheDirective d = false)
    (hbp : bypassTriggered cbh req = false)
    (hmiss : hrecField st (md5hex (jsonStringify b)) "response" = none)
    (hraw : jsonParse (upstream (some b)) = .ok resp)
    (he : jsGetField resp "errors" = .ok errs) (het : truthy errs = false)
    (hda : jsGetField resp "data" = .ok data) (hdt : truthy data = true)
    (hrt : jsonParse (jsonStringify data) = .ok data) :
    (handleRequest env cbh gt listIface st req now1 upstream).upstreamCalls = 1 ∧
    StoreOp.hset (md5hex (jsonStringify b)) "lastRequested" now1 gt
      ∈ (handleRequest env cbh gt listIface st req now1 upstream).trace ∧
    (handleRequest env cbh gt listIface
        (handleRequest env cbh gt listIface st req now1 upstream).store
        req now2 upstream).upstreamCalls = 0 ∧
    StoreOp.hset (md5hex (jsonStringify b)) "lastRequested" now2 gt
      ∈ (handleRequest env cbh gt listIface
          (handleRequest env cbh gt listIface st req now1 upstream).store
          req now2 upstream).trace ∧
    (handleRequest env cbh gt listIface
        (handleRequest env cbh gt listIface st req now1 upstream).store
        req now2 upstream).result
      = .served [(CACHE_HEADER, "true"), (CACHE_HASH_HEADER, md5hex (jsonStringify b))]
          (.vObj [("data", data)]) := by
  have hne : (md5hex (jsonStringify b) != "") = true := md5hex_ne_empty _
  have hHm := hash_miss cbh gt st req now1 b q hb htb hq ht hbp hmiss
  have hPw := onProxyRes_hashWrite gt
      (hsetStore st (md5hex (jsonStringify b)) "lastRequested" now1)
      { req with bodyHash := some (md5hex (jsonStringify b)) }
      (upstream (some b)) resp errs data (md5hex (jsonStringify b))
      (by simp) hne hraw he het hda hdt
  have hr1 : handleRequest env cbh gt listIface st req now1 upstream =
      ⟨.relayed (upstream (some b)),
        hsetStore (hsetStore
            (hsetStore st (md5hex (jsonStringify b)) "lastRequested" now1)
            (md5hex (jsonStringify b)) "request" (stringifyBody req.body))
          (md5hex (jsonStringify b)) "response" (jsonStringify data),
        [.hset (md5hex (jsonStringify b)) "lastRequested" now1 gt,
         .hget (md5hex (jsonStringify b)),
         .hset (md5hex (jsonStringify b)) "request" (stringifyBody req.body) gt,
         .hset (md5hex (jsonStringify b)) "response" (jsonStringify data) gt],
        [], 1, { req with bodyHash := some (md5hex (jsonStringify b)) }⟩ := by
    unfold handleRequest
    rw [directive_passthrough env listIface st req b q d hb htb hq ht hp hdF]
    rw [hb] at hPw
    simp only [hHm, hb, hPw]
    simp
  have hneS : (jsonStringify data != "") = true := by
    cases hcon : decide (jsonStringify data = "") with
    | false => simpa using of_decide_eq_false hcon
    | true =>
        have hz := of_decide_eq_true hcon
        rw [hz, jsonParse_empty] at hrt
        cases hrt
  have hhit2 : hrecField
      (hsetStore (hsetStore
          (hsetStore st (md5hex (jsonStringify b)) "lastRequested" now1)
          (md5hex (jsonStringify b)) "request" (stringifyBody req.body))
        (md5hex (jsonStringify b)) "response" (jsonStringify data))
      (md5hex (jsonStringify b)) "response" = some (jsonStringify data) :=
    hrecField_hsetStore_eq _ _ _ _
  have hHh := hash_hit cbh gt
      (hsetStore (hsetStore
          (hsetStore st (md5hex (jsonStringify b)) "lastRequested" now1)
          (md5hex (jsonStringify b)) "request" (stringifyBody req.body))
        (md5hex (jsonStringify b)) "response" (jsonStringify data))
      req now2 b q (jsonStringify data) data hb htb hq ht hbp hhit2 hneS hrt
  have hr2 : handleRequest env cbh gt listIface
      (hsetStore (hsetStore
          (hsetStore st (md5hex (jsonStringify b)) "lastRequested" now1)
          (md5hex (jsonStringify b)) "request" (stringifyBody req.body))
        (md5hex (jsonStringify b)) "response" (jsonStringify data))
      req now2 upstream =
      ⟨.served [(CACHE_HEADER, "true"), (CACHE_HASH_HEADER, md5hex (jsonStringify b))]
          (.vObj [("data", data)]),
        hsetStore (hsetStore (hsetStore
            (hsetStore st (md5hex (jsonStringify b)) "lastRequested" now1)
            (md5hex (jsonStringify b)) "request" (stringifyBody req.body))
          (md5hex (jsonStringify b)) "response" (jsonStringify data))
          (md5hex (jsonStringify b)) "lastRequested" now2,
        [.hset (md5hex (jsonStringify b)) "lastRequested" now2 gt,
         .hget (md5hex (jsonStringify b))],
        [], 0, { req with bodyHash := some (md5hex (jsonStringify b)) }⟩ := by
    unfold handleRequest
    rw [directive_passthrough env listIface
      (hsetStore (hsetStore
          (hsetStore st (md5hex (jsonStringify b)) "lastRequested" now1)
          (md5hex (jsonStringify b)) "request" (stringifyBody req.body))
        (md5hex (jsonStringify b)) "response" (jsonStringify data))
      req b q d hb htb hq ht hp hdF]
    simp only [hHh]
    simp
  refine ⟨?_, ?_, ?_, ?_, ?_⟩
  · rw [hr1]
  · rw [hr1]; simp
  · rw [hr1, hr2]
  · rw [hr1, hr2]; simp
  · rw [hr1, hr2]

theorem C8_hashOfStrippedBody_witness :
    (handleRequest simpleEnv none 0 listIface emptyStore (mkReq (some dirBody)) "t0"
        (fun _ => okRaw)).finalReq.bodyHash
      = some (md5hex (jsonStringify
          (spreadSetQuery (mkReq (some dirBody)).body (simpleEnv.print "q")))) :=
  C8_hashOfStrippedBody simpleEnv none 0 listIface emptyStore (mkReq (some dirBody)) "t0"
    (fun _ => okRaw) dirBody (.vStr "q @cache") .vUndefined .vNull "q @cache" "q" "abc" 60
    rfl rfl rfl rfl rfl rfl rfl rfl rfl rfl rfl rfl rfl

theorem C9_idempotent_witness :
    (handleRequest simpleEnv none 0 listIface emptyStore (mkReq (some plainBody)) "t1"
        (fun _ => okRaw)).upstreamCalls = 1 ∧
    StoreOp.hset (md5hex (jsonStringify plainBody)) "lastRequested" "t1" 0
      ∈ (handleRequest simpleEnv none 0 listIface emptyStore (mkReq (some plainBody)) "t1"
          (fun _ => okRaw)).trace ∧
    (handleRequest simpleEnv none 0 listIface
        (handleRequest simpleEnv none 0 listIface emptyStore (mkReq (some plainBody)) "t1"
          (fun _ => okRaw)).store
        (mkReq (some plainBody)) "t2" (fun _ => okRaw)).upstreamCalls = 0 ∧
    StoreOp.hset (md5hex (jsonStringify plainBody)) "lastRequested" "t2" 0
      ∈ (handleRequest simpleEnv none 0 listIface
          (handleRequest simpleEnv none 0 listIface emptyStore (mkReq (some plainBody)) "t1"
            (fun _ => okRaw)).store
          (mkReq (some plainBody)) "t2" (fun _ => okRaw)).trace ∧
    (handleRequest simpleEnv none 0 listIface
        (handleRequest simpleEnv none 0 listIface emptyStore (mkReq (some plainBody)) "t1"
          (fun _ => okRaw)).store
        (mkReq (some plainBody)) "t2" (fun _ => okRaw)).result
      = .served [(CACHE_HEADER, "true"),
                 (CACHE_HASH_HEADER, md5hex (jsonStringify plainBody))]
          (.vObj [("data", okData)]) :=
  C9_idempotent simpleEnv none 0 emptyStore (mkReq (some plainBody)) "t1" "t2"
    (fun _ => okRaw) plainBody (.vStr "q") "q" okResp .vUndefined okData
    rfl rfl rfl rfl rfl rfl rfl rfl rfl rfl rfl rfl rfl rfl

theorem getKeys_append (a b : List StoreOp) :
    getKeys (a ++ b) = getKeys a ++ getKeys b :=
  List.filterMap_append a b _

theorem setKeys_append (a b : List StoreOp) :
    setKeys (a ++ b) = setKeys a ++ setKeys b :=
  List.filterMap_append a b _

theorem hashKeys_append (a b : List StoreOp) :
    hashKeys (a ++ b) = hashKeys a ++ hashKeys b :=
  List.filterMap_append a b _

/-- The Directive Phase issues no scalar sets and no hash operations. -/
theorem directive_keys {σ : Type} (env : GqlEnv) (C : CacheIface σ) (st : σ)
    (req : Req) :
    hashKeys (directiveMiddleware env C st req).trace = [] ∧
    setKeys (directiveMiddleware env C st req).trace = [] := by
  unfold directiveMiddleware
  repeat' split
  all_goals simp [getKeys, setKeys, hashKeys]

/-- When the Directive Phase attached `_hasCache = {id, _}` to a fresh
request, its single scalar get was on that very id. -/
theorem directive_get_key {σ : Type} (env : GqlEnv) (C : CacheIface σ) (st : σ)
    (req : Req) (id : String) (t : Int) (h1 : req.hasCache = none)
    (hct : (directiveMiddleware env C st req).req.hasCache = some (id, t)) :
    getKeys (directiveMiddleware env C st req).trace = [id] := by
  unfold directiveMiddleware at hct ⊢
  repeat' split at hct
  all_goals try simp_all [getKeys]
  all_goals (split <;> simp_all [getKeys])

/-- The Hash Phase issues no scalar operations and leaves `_hasCache`
untouched. -/
theorem hash_keys_basic {σ : Type} (cbh : Option String) (gt : Int)
    (C : CacheIface σ) (st : σ) (req : Req) (now : String) :
    getKeys (hashMiddleware cbh gt C st req now).trace = [] ∧
    setKeys (hashMiddleware cbh gt C st req now).trace = [] ∧
    (hashMiddleware cbh gt C st req now).req.hasCache = req.hasCache := by
  unfold hashMiddleware
  split
  · simp [getKeys, setKeys]
  · split
    · simp [getKeys, setKeys]
    · split
      · simp [getKeys, setKeys]
      · cases hh1 : C.hset st (md5hex (stringifyBody req.body)) "lastRequested" now gt with
        | error e => simp [hh1, getKeys, setKeys]
        | ok st1 =>
          cases hh2 : C.hget st1 (md5hex (stringifyBody req.body)) with
          | error e => simp [hh1, hh2, getKeys, setKeys]
          | ok cq =>
            cases cq with
            | none => simp [hh1, hh2, getKeys, setKeys]
            | some rec =>
              cases hlk : List.lookup "response" rec with
              | none => simp [hh1, hh2, hlk, getKeys, setKeys]
              | some resp =>
                by_cases hre : resp = ""
                · simp [hh1, hh2, hlk, hre, getKeys, setKeys]
                · cases hjp : jsonParse resp with
                  | error e => simp [hh1, hh2, hlk, hre, hjp, getKeys, setKeys]
                  | ok v => simp [hh1, hh2, hlk, hre, hjp, getKeys, setKeys]

/-- Every hash-record key the Hash Phase touches is the `_bodyHash` it
attached to the request. -/
theorem hash_keys_mem {σ : Type} (cbh : Option String) (gt : Int)
    (C : CacheIface σ) (st : σ) (req : Req) (now : String) (k : String)
    (hk : k ∈ hashKeys (hashMiddleware cbh gt C st req now).trace) :
    (hashMiddleware cbh gt C st req now).req.bodyHash = some k := by
  unfold hashMiddleware at hk ⊢
  by_cases hg1 : ((!optTruthy req.body) && (req.method == "POST")) = true
  · simp [hg1, hashKeys] at hk
  · cases hq : jsGetFieldOpt req.body "query" with
    | error e => simp [hg1, hq, hashKeys] at hk
    | ok q =>
      by_cases hg2 : ((!truthy q) || bypassTriggered cbh req) = true
      · simp [hg1, hq, hg2, hashKeys] at hk
      · cases hh1 : C.hset st (md5hex (stringifyBody req.body)) "lastRequested" now gt with
        | error e =>
            simp [hg1, hq, hg2, hh1, hashKeys] at hk ⊢
            exact hk.symm
        | ok st1 =>
          cases hh2 : C.hget st1 (md5hex (stringifyBody req.body)) with
          | error e =>
              simp [hg1, hq, hg2, hh1, hh2, hashKeys] at hk ⊢
              rcases hk with rfl | rfl <;> rfl
          | ok cq =>
            cases cq with
            | none =>
                simp [hg1, hq, hg2, hh1, hh2, hashKeys] at hk ⊢
                rcases hk with rfl | rfl <;> rfl
            | some rec =>
              cases hlk : List.lookup "response" rec with
              | none =>
                  simp [hg1, hq, hg2, hh1, hh2, hlk, hashKeys] at hk ⊢
                  rcases hk with rfl | rfl <;> rfl
              | some resp =>
                by_cases hre : resp = ""
                · simp [hg1, hq, hg2, hh1, hh2, hlk, hre, hashKeys] at hk ⊢
                  rcases hk with rfl | rfl <;> rfl
                · cases hjp : jsonParse resp with
                  | error e =>
                      simp [hg1, hq, hg2, hh1, hh2, hlk, hre, hjp, hashKeys] at hk ⊢
                      rcases hk with rfl | rfl <;> rfl
                  | ok v =>
                      simp [hg1, hq, hg2, hh1, hh2, hlk, hre, hjp, hashKeys] at hk ⊢
                      rcases hk with rfl | rfl <;> rfl

/-- The Response Interceptor issues no scalar gets. -/
theorem onProxyRes_no_get {σ : Type} (gt : Int) (C : CacheIface σ) (st : σ)
    (req : Req) (decoded : Except String String) :
    getKeys (onProxyRes gt C st req decoded).trace = [] := by
  unfold onProxyRes directiveWrite
  repeat' split
  all_goals simp [getKeys]

/-- Every hash-record key the Response Interceptor writes is the
request's `_bodyHash`. -/
theorem onProxyRes_hashKeys_mem {σ : Type} (gt : Int) (C : CacheIface σ) (st : σ)
    (req : Req) (decoded : Except String String) (k : String)
    (hk : k ∈ hashKeys (onProxyRes gt C st req decoded).trace) :
    req.bodyHash = some k := by
  unfold onProxyRes directiveWrite at hk
  repeat' split at hk
  all_goals simp_all [hashKeys]

/-- Every scalar-set key the Response Interceptor writes is the
`_hasCache` id of the request. -/
theorem onProxyRes_setKeys_mem {σ : Type} (gt : Int) (C : CacheIface σ) (st : σ)
    (req : Req) (decoded : Except String String) (k : String)
    (hk : k ∈ setKeys (onProxyRes gt C st req decoded).trace) :
    ∃ t, req.hasCache = some (k, t) := by
  unfold onProxyRes directiveWrite at hk
  repeat' split at hk
  all_goals simp_all [setKeys]

/-- C7: within one request's lifecycle, each strategy's cache key is
used consistently.  For a fresh request (no pre-attached annotation
state), every scalar-set key in the full pipeline trace equals every
scalar-get key (the directive id looked up is the id eventually
written), and all hash-record operations — request-time `hset`/`hget`
and response-time `hset`s — address one and the same hash key; lookup
and write never diverge onto different keys. -/
theorem C7_keyConsistency {σ : Type} (env : GqlEnv) (cbh : Option String) (gt : Int)
    (C : CacheIface σ) (st : σ) (req : Req) (now : String)
    (upstream : Option JsVal → String)
    (h1 : req.hasCache = none) (h2 : req.bodyHash = none) :
    (∀ k ∈ setKeys (handleRequest env cbh gt C st req now upstream).trace,
      ∀ k' ∈ getKeys (handleRequest env cbh gt C st req now upstream).trace, k = k') ∧
    (∀ k ∈ hashKeys (handleRequest env cbh gt C st req now upstream).trace,
      ∀ k' ∈ hashKeys (handleRequest env cbh gt C st req now upstream).trace, k = k') := by
  obtain ⟨dh, ds⟩ := directive_keys env C st req
  obtain ⟨hg, hs, hc⟩ := hash_keys_basic cbh gt C
    (directiveMiddleware env C st req).store (directiveMiddleware env C st req).req now
  unfold handleRequest
  cases ho1 : (directiveMiddleware env C st req).outcome with
  | respond hs0 b0 =>
      simp only [ho1]
      constructor
      · intro k hk
        rw [ds] at hk
        simp at hk
      · intro k hk
        rw [dh] at hk
        simp at hk
  | thrown e0 =>
      simp only [ho1]
      constructor
      · intro k hk
        rw [ds] at hk
        simp at hk
      · intro k hk
        rw [dh] at hk
        simp at hk
  | next =>
      simp only [ho1]
      cases ho2 : (hashMiddleware cbh gt C (directiveMiddleware env C st req).store
          (directiveMiddleware env C st req).req now).outcome with
      | respond hs0 b0 =>
          simp only [ho2]
          constructor
          · intro k hk
            rw [setKeys_append, ds, hs] at hk
            simp at hk
          · intro k hk k' hk'
            rw [hashKeys_append, dh] at hk hk'
            simp at hk hk'
            have e1 := hash_keys_mem cbh gt C _ _ now k hk
            have e2 := hash_keys_mem cbh gt C _ _ now k' hk'
            rw [e1] at e2
            exact (Option.some_inj.mp e2)
      | thrown e0 =>
          simp only [ho2]
          constructor
          · intro k hk
            rw [setKeys_append, ds, hs] at hk
            simp at hk
          · intro k hk k' hk'
            rw [hashKeys_append, dh] at hk hk'
            simp at hk hk'
            have e1 := hash_keys_mem cbh gt C _ _ now k hk
            have e2 := hash_keys_mem cbh gt C _ _ now k' hk'
            rw [e1] at e2
            exact (Option.some_inj.mp e2)
      | next =>
          simp only [ho2]
          constructor
          · intro k hk k' hk'
            rw [setKeys_append, setKeys_append, ds, hs] at hk
            simp at hk
            obtain ⟨t, hct⟩ := onProxyRes_setKeys_mem gt C _ _ _ k hk
            rw [hc] at hct
            have hget := directive_get_key env C st req k t h1 hct
            rw [getKeys_append, getKeys_append, hg, onProxyRes_no_get, hget] at hk'
            simp at hk'
            exact hk'.symm
          · intro k hk k' hk'
            rw [hashKeys_append, hashKeys_append, dh] at hk hk'
            simp at hk hk'
            have e1 : (hashMiddleware cbh gt C (directiveMiddleware env C st req).store
                (directiveMiddleware env C st req).req now).req.bodyHash = some k := by
              rcases hk with hk | hk
              · exact hash_keys_mem cbh gt C _ _ now k hk
              · exact onProxyRes_hashKeys_mem gt C _ _ _ k hk
            have e2 : (hashMiddleware cbh gt C (directiveMiddleware env C st req).store
                (directiveMiddleware env C st req).req now).req.bodyHash = some k' := by
              rcases hk' with hk' | hk'
              · exact hash_keys_mem cbh gt C _ _ now k' hk'
              · exact onProxyRes_hashKeys_mem gt C _ _ _ k' hk'
            rw [e1] at e2
            exact (Option.some_inj.mp e2)

theorem C7_keyConsistency_witness :
    (∀ k ∈ setKeys (handleRequest simpleEnv none 0 listIface emptyStore
        (mkReq (some plainBody)) "t0" (fun _ => okRaw)).trace,
      ∀ k' ∈ getKeys (handleRequest simpleEnv none 0 listIface emptyStore
        (mkReq (some plainBody)) "t0" (fun _ => okRaw)).trace, k = k') ∧
    (∀ k ∈ hashKeys (handleRequest simpleEnv none 0 listIface emptyStore
        (mkReq (some plainBody)) "t0" (fun _ => okRaw)).trace,
      ∀ k' ∈ hashKeys (handleRequest simpleEnv none 0 listIface emptyStore
        (mkReq (some plainBody)) "t0" (fun _ => okRaw)).trace, k = k') :=
  C7_keyConsistency simpleEnv none 0 listIface emptyStore (mkReq (some plainBody)) "t0"
    (fun _ => okRaw) rfl rfl
